import Mathlib

/-!
Verification of the typed data-exchange layer of t8code
(`src/t8_data/t8_data_handler.hxx`).

The embedding models MPI packed buffers as lists of natural numbers
(bytes).  The element codec `t8_single_data_handler` lives in
`t8_data_handler_base.hxx`, which is not part of the excerpt; it is
modelled from the specification (spec §4.1) as a structure carrying the
codec contract.  Machine `int` values are modelled as `Int` with
two's-complement 32-bit wrapping made explicit where it matters.
Fallible code returns `Except t8_err`:
`t8_err.abort` models a fatal check (`SC_CHECK_MPI` on a non-success
MPI status, `T8_ASSERT` failure), `t8_err.undef` models undefined
behaviour (null-pointer dereference, out-of-bounds vector access).
-/

namespace T8

/-- Outcome of a fatal path: `abort` is a checked fatal abort
(`SC_CHECK_MPI`, `T8_ASSERT`), `undef` is undefined behaviour
(null dereference, out-of-bounds access). -/
inductive t8_err where
  | undef : t8_err
  | abort : t8_err
deriving DecidableEq, Repr

/-- Transport (MPI) operations that `send`/`recv` may issue; used to
trace which transport calls a run performs, in order. -/
inductive t8_op where
  | opSend : t8_op
  | opProbe : t8_op
  | opGetCount : t8_op
  | opRecv : t8_op
deriving DecidableEq, Repr

/-- Modelled from the spec (out-of-scope transport substrate):
the success status of the message-passing layer. -/
def sc_MPI_SUCCESS : Int := 0

/-- Modelled from the spec: the distinguished nonzero
"transport unavailable" status returned by `send`/`recv` when MPI is
compiled out (`sc_MPI_ERR_OTHER` in the source). -/
def sc_MPI_ERR_OTHER : Int := 16

/-- Modelled from the spec (wire format, §3): the encoded size of the
4-byte signed-integer count prefix (`sc_MPI_Pack_size (1, sc_MPI_INT)`). -/
def count_prefix_size : Nat := 4

/-- Read `n` bytes of `buffer` starting at offset `pos`. -/
def readBytes (buffer : List Nat) (pos n : Nat) : List Nat :=
  (buffer.drop pos).take n

/-- Overwrite the bytes of `buffer` at offsets `[pos, pos + bs.length)`
with `bs`; this is what one `sc_MPI_Pack` call does to a packed buffer. -/
def writeBytes (buffer : List Nat) (pos : Nat) (bs : List Nat) : List Nat :=
  buffer.take pos ++ bs ++ buffer.drop (pos + bs.length)

/-- Modelled from the spec (wire format, §3): the 4-byte encoding of a
signed 32-bit integer (the count prefix), two's complement,
byte-ordered little end first. -/
def intToBytes (n : Int) : List Nat :=
  [ (n % 4294967296).toNat % 256,
    (n % 4294967296).toNat / 256 % 256,
    (n % 4294967296).toNat / 65536 % 256,
    (n % 4294967296).toNat / 16777216 % 256 ]

/-- The unsigned value of the first four bytes of `bs` (missing bytes
read as 0, bytes are reduced mod 256). -/
def bytesToNat4 (bs : List Nat) : Nat :=
  bs.getD 0 0 % 256 + 256 * (bs.getD 1 0 % 256)
    + 65536 * (bs.getD 2 0 % 256) + 16777216 * (bs.getD 3 0 % 256)

/-- Modelled from the spec (wire format, §3): decode the 4-byte count
prefix as a signed 32-bit integer (two's complement). -/
def bytesToInt (bs : List Nat) : Int :=
  if bytesToNat4 bs < 2147483648 then (bytesToNat4 bs : Int)
  else (bytesToNat4 bs : Int) - 4294967296

/-- Modelled from the spec: the element codec
`t8_single_data_handler<T>` of `t8_data_handler_base.hxx`, which is
absent from the excerpt.  Per spec §4.1 the codec for `T` provides a
per-element encoded size that is a pure function of the (here fixed)
communication context — hence a constant `size` — an `encode` that
writes exactly `encoded_size` bytes at the cursor and advances the
cursor by that amount (factored here as the byte string `pack v`), a
`decode` that is its exact inverse (`unpack`) and does not re-validate
buffer bounds, and a small integer tag `type` identifying `T`. -/
structure t8_single_data_handler (T : Type) where
  size : Nat
  pack : T → List Nat
  unpack : List Nat → T
  type : Int
  pack_length : ∀ v, (pack v).length = size
  unpack_pack : ∀ v, unpack (pack v) = v

/-- The typed exchange handler `t8_data_handler<T>`
(`t8_data_handler.hxx`, lines 133-247): it owns an optional collection
(`std::shared_ptr<std::vector<T>> m_data`, `nullptr` modelled as
`none`) and an element codec member `single_handler`. -/
structure t8_data_handler (T : Type) where
  m_data : Option (List T)
  single_handler : t8_single_data_handler T

variable {T : Type}

/-- `t8_data_handler::get_data` (lines 145-151): copy the owned
collection into the caller's vector if one is owned
(`if (m_data) data = *m_data;`); the method is `const`, so the handler
itself is unmodified, which the pure embedding reflects by returning
only the caller's new vector. -/
def get_data (h : t8_data_handler T) (data : List T) : List T :=
  match h.m_data with
  | some d => d
  | none => data

/-- `t8_data_handler::buffer_size` (lines 153-165): the packed size of
one `int` (the count prefix), plus, when a collection is owned, the
per-item encoded size accumulated over the owned items. -/
def buffer_size (h : t8_data_handler T) : Nat :=
  match h.m_data with
  | none => count_prefix_size
  | some data => data.foldl (fun total _item => total + h.single_handler.size) count_prefix_size

/-- The packing loop of `pack_vector_prefix` (lines 174-176): pack each
item at the cursor, advancing the cursor by the item's encoded size. -/
def pack_items (c : t8_single_data_handler T) :
    List T → List Nat → Nat → List Nat × Nat
  | [], buffer, pos => (buffer, pos)
  | x :: xs, buffer, pos =>
    pack_items c xs (writeBytes buffer pos (c.pack x)) (pos + c.size)

/-- `t8_data_handler::pack_vector_prefix` (lines 167-177): read
`m_data->size ()` (a null dereference when no collection is owned —
the source checks nothing first), pack it as the `int` count prefix
(`sc_MPI_Pack` fails and `SC_CHECK_MPI` aborts when fewer than
`count_prefix_size` bytes remain up to `num_bytes`), then pack each
owned item in order. -/
def pack_vector_prefix (h : t8_data_handler T) (buffer : List Nat)
    (num_bytes pos : Nat) : Except t8_err (List Nat × Nat) :=
  match h.m_data with
  | none => Except.error t8_err.undef
  | some data =>
    if num_bytes < pos + count_prefix_size then Except.error t8_err.abort
    else Except.ok
      ( pack_items h.single_handler data
        (writeBytes buffer pos (intToBytes (data.length : Int)))
        (pos + count_prefix_size))

/-- The decoding loop of `unpack_vector_prefix` (lines 192-194): decode
the requested number of elements in order, advancing the cursor by the
encoded size each time. -/
def unpack_items (c : t8_single_data_handler T) (buffer : List Nat) :
    Nat → Nat → List T × Nat
  | 0, pos => ([], pos)
  | n + 1, pos =>
    ((c.unpack (readBytes buffer pos c.size)) :: (unpack_items c buffer n (pos + c.size)).1,
      (unpack_items c buffer n (pos + c.size)).2)

/-- `t8_data_handler::unpack_vector_prefix` (lines 179-195): unpack the
`int` count prefix (`sc_MPI_Unpack` fails and `SC_CHECK_MPI` aborts
when fewer than `count_prefix_size` bytes remain up to `num_bytes`),
assert `outcount >= 0` (`T8_ASSERT`, modelled as a fatal check), size
the owned collection to exactly `outcount` (allocating it when absent,
resizing it otherwise) and decode every one of its elements in order.
The result carries the new handler state, the final cursor and
`outcount`. -/
def unpack_vector_prefix (h : t8_data_handler T) (buffer : List Nat)
    (num_bytes pos : Nat) : Except t8_err (t8_data_handler T × Nat × Int) :=
  if num_bytes < pos + count_prefix_size then Except.error t8_err.abort
  else if bytesToInt (readBytes buffer pos count_prefix_size) < 0 then Except.error t8_err.abort
  else Except.ok
    ({ h with m_data := some (unpack_items h.single_handler buffer
        (bytesToInt (readBytes buffer pos count_prefix_size)).toNat
        (pos + count_prefix_size)).1 },
      (unpack_items h.single_handler buffer
        (bytesToInt (readBytes buffer pos count_prefix_size)).toNat
        (pos + count_prefix_size)).2,
      bytesToInt (readBytes buffer pos count_prefix_size))

/-- `t8_data_handler::type` (lines 238-242): forward to the codec's tag. -/
def type (h : t8_data_handler T) : Int := h.single_handler.type

/-- One matching run of the out-of-scope transport substrate, as seen
by a single `send` or `recv` call: the statuses each blocking MPI
operation would return, and the byte payload of the probed message
(whose exact length `sc_MPI_Get_count` reports). -/
structure t8_transport where
  send_status : Int
  probe_status : Int
  get_count_status : Int
  recv_status : Int
  msg : List Nat

/-- `t8_data_handler::send`, MPI branch (lines 197-213): allocate a
zeroed buffer of exactly `buffer_size` bytes, pack into it, issue one
blocking `sc_MPI_Send` (traced as `opSend`), abort via `SC_CHECK_MPI`
on a non-success status and otherwise return that status. -/
def send_mpi (tr : t8_transport) (h : t8_data_handler T) :
    List t8_op × Except t8_err Int :=
  match pack_vector_prefix h (List.replicate (buffer_size h) 0) (buffer_size h) 0 with
  | Except.error e => ([], Except.error e)
  | Except.ok _ =>
    if tr.send_status = sc_MPI_SUCCESS then ([t8_op.opSend], Except.ok tr.send_status)
    else ([t8_op.opSend], Except.error t8_err.abort)

/-- `t8_data_handler::recv`, MPI branch (lines 215-236): blocking
`sc_MPI_Probe` for the matching message, `sc_MPI_Get_count` for its
exact byte length, a receive buffer of exactly that many bytes, a
blocking `sc_MPI_Recv` into it, then `unpack_vector_prefix` on the
received bytes at cursor 0; each MPI status goes through
`SC_CHECK_MPI` (abort on non-success).  Returns the transport status,
the new handler state and `outcount`. -/
def recv_mpi (tr : t8_transport) (h : t8_data_handler T) :
    List t8_op × Except t8_err (Int × t8_data_handler T × Int) :=
  if tr.probe_status ≠ sc_MPI_SUCCESS then ([t8_op.opProbe], Except.error t8_err.abort)
  else if tr.get_count_status ≠ sc_MPI_SUCCESS then
    ([t8_op.opProbe, t8_op.opGetCount], Except.error t8_err.abort)
  else if tr.recv_status ≠ sc_MPI_SUCCESS then
    ([t8_op.opProbe, t8_op.opGetCount, t8_op.opRecv], Except.error t8_err.abort)
  else
    match unpack_vector_prefix h tr.msg tr.msg.length 0 with
    | Except.error e => ([t8_op.opProbe, t8_op.opGetCount, t8_op.opRecv], Except.error e)
    | Except.ok (h', _, outcount) =>
      ([t8_op.opProbe, t8_op.opGetCount, t8_op.opRecv],
        Except.ok (tr.recv_status, h', outcount))

/-- `t8_data_handler::send`, non-MPI branch (lines 209-212): no
transport call (empty trace), one informational diagnostic via
`t8_infof`, immediate return of `sc_MPI_ERR_OTHER`; the handler is
untouched. -/
def send_noMPI (_h : t8_data_handler T) : List t8_op × List String × Int :=
  ([], ["send only available when configured with --enable-mpi\n"], sc_MPI_ERR_OTHER)

/-- `t8_data_handler::recv`, non-MPI branch (lines 232-235): no
transport call (empty trace), one informational diagnostic via
`t8_infof`, immediate return of `sc_MPI_ERR_OTHER`; the handler is
untouched. -/
def recv_noMPI (_h : t8_data_handler T) : List t8_op × List String × Int :=
  ([], ["recv only available when configured with --enable-mpi\n"], sc_MPI_ERR_OTHER)

/-- `t8_data_handler::t8_buffer_size` of the second (statically
inherited) handler variant (lines 282-290): the packed size of one
`int` plus `num_data` times the per-element encoded size. -/
def t8_buffer_size (c : t8_single_data_handler T) (num_data : Nat) : Nat :=
  count_prefix_size + num_data * c.size

/-- `t8_data_handler::t8_data_pack_vector` of the second handler
variant (lines 292-303): assert (fatally) that the caller's buffer has
exactly `t8_buffer_size` bytes, pack `num_data` as the count prefix at
cursor 0, then pack `data[0] .. data[num_data - 1]` in order (an
out-of-bounds vector access — undefined behaviour — when fewer than
`num_data` items are supplied). -/
def t8_data_pack_vector (c : t8_single_data_handler T) (data : List T)
    (num_data : Nat) (buffer : List Nat) : Except t8_err (List Nat) :=
  if buffer.length ≠ t8_buffer_size c num_data then Except.error t8_err.abort
  else if data.length < num_data then Except.error t8_err.undef
  else Except.ok
    ( pack_items c (data.take num_data)
      (writeBytes buffer 0 (intToBytes (num_data : Int)))
      count_prefix_size).1

/-- `t8_data_handler::t8_data_unpack_vector` of the second handler
variant (lines 305-319): unpack the count prefix at cursor 0
(`SC_CHECK_MPI` aborts when the buffer is shorter than the prefix),
assert `outcount >= 0` (`T8_ASSERT`), resize the caller's vector to
`outcount` and decode each element in order; the prior contents of the
caller's vector never survive, so the embedding returns the decoded
vector and `outcount`. -/
def t8_data_unpack_vector (c : t8_single_data_handler T) (buffer : List Nat) :
    Except t8_err (List T × Int) :=
  if buffer.length < count_prefix_size then Except.error t8_err.abort
  else if bytesToInt (readBytes buffer 0 count_prefix_size) < 0 then Except.error t8_err.abort
  else Except.ok
    ((unpack_items c buffer
        (bytesToInt (readBytes buffer 0 count_prefix_size)).toNat count_prefix_size).1,
      bytesToInt (readBytes buffer 0 count_prefix_size))

/-- The concatenated element encodings of a collection, in order. -/
def packAll (c : t8_single_data_handler T) : List T → List Nat
  | [] => []
  | x :: xs => c.pack x ++ packAll c xs

/-- The full wire image of a collection: count prefix then elements. -/
def encodeAll (c : t8_single_data_handler T) (data : List T) : List Nat :=
  intToBytes (data.length : Int) ++ packAll c data

/-- A concrete element codec used to instantiate theorems: one byte
per `Bool`, nonzero meaning `true`. -/
def boolCodec : t8_single_data_handler Bool where
  size := 1
  pack v := [if v then 1 else 0]
  unpack bs := bs.headD 0 != 0
  type := 0
  pack_length v := by cases v <;> rfl
  unpack_pack v := by cases v <;> rfl

theorem intToBytes_length (n : Int) : (intToBytes n).length = count_prefix_size := rfl

theorem bytesToInt_intToBytes (n : Int) (h0 : 0 ≤ n) (h1 : n < 2147483648) :
    bytesToInt (intToBytes n) = n := by
  unfold bytesToInt bytesToNat4 intToBytes
  simp only [List.getD_cons_zero, List.getD_cons_succ]
  split <;> omega

theorem packAll_length (c : t8_single_data_handler T) (xs : List T) :
    (packAll c xs).length = xs.length * c.size := by
  induction xs with
  | nil => simp [packAll]
  | cons x xs ih =>
    simp [packAll, ih, c.pack_length, Nat.succ_mul, Nat.add_comm]

theorem writeBytes_exact (A mid B bs : List Nat) (h : mid.length = bs.length) :
    writeBytes (A ++ mid ++ B) A.length bs = A ++ bs ++ B := by
  have ht : (A ++ mid ++ B).take A.length = A := by
    rw [List.append_assoc]
    exact List.take_left' rfl
  have hd : (A ++ mid ++ B).drop (A.length + bs.length) = B :=
    List.drop_left' (by simp [h])
  unfold writeBytes
  rw [ht, hd]

theorem pack_items_spec (c : t8_single_data_handler T) :
    ∀ (xs : List T) (A mid B : List Nat), mid.length = xs.length * c.size →
      pack_items c xs (A ++ mid ++ B) A.length
        = (A ++ packAll c xs ++ B, A.length + xs.length * c.size) := by
  intro xs
  induction xs with
  | nil =>
    intro A mid B hm
    have hmid : mid = [] := List.eq_nil_of_length_eq_zero (by simpa using hm)
    subst hmid
    simp [pack_items, packAll]
  | cons x xs ih =>
    intro A mid B hm
    have hmlen : mid.length = c.size + xs.length * c.size := by
      rw [hm]; simp [Nat.succ_mul, Nat.add_comm]
    obtain ⟨m1, m2, rfl, hm1, hm2⟩ :
        ∃ m1 m2, mid = m1 ++ m2 ∧ m1.length = c.size ∧ m2.length = xs.length * c.size := by
      refine ⟨mid.take c.size, mid.drop c.size, (List.take_append_drop _ _).symm, ?_, ?_⟩
      · rw [List.length_take]; omega
      · rw [List.length_drop]; omega
    have hbuf : A ++ (m1 ++ m2) ++ B = A ++ m1 ++ (m2 ++ B) := by
      simp [List.append_assoc]
    have hw : writeBytes (A ++ (m1 ++ m2) ++ B) A.length (c.pack x)
        = A ++ c.pack x ++ (m2 ++ B) := by
      rw [hbuf]
      exact writeBytes_exact A m1 (m2 ++ B) (c.pack x) (by rw [hm1, c.pack_length])
    have hpos : A.length + c.size = (A ++ c.pack x).length := by
      simp [c.pack_length]
    have hbuf2 : A ++ c.pack x ++ (m2 ++ B) = (A ++ c.pack x) ++ m2 ++ B := by
      simp [List.append_assoc]
    show pack_items c xs (writeBytes (A ++ (m1 ++ m2) ++ B) A.length (c.pack x))
        (A.length + c.size)
        = (A ++ packAll c (x :: xs) ++ B, A.length + (x :: xs).length * c.size)
    rw [hw, hpos, hbuf2, ih (A ++ c.pack x) m2 B hm2]
    simp only [Prod.mk.injEq]
    refine ⟨?_, ?_⟩
    · simp [packAll, List.append_assoc]
    · simp only [List.length_append, c.pack_length, List.length_cons, Nat.succ_mul]
      omega

theorem unpack_items_spec (c : t8_single_data_handler T) :
    ∀ (xs : List T) (A B : List Nat),
      unpack_items c (A ++ packAll c xs ++ B) xs.length A.length
        = (xs, A.length + xs.length * c.size) := by
  intro xs
  induction xs with
  | nil =>
    intro A B
    simp [unpack_items]
  | cons x xs ih =>
    intro A B
    have hread : readBytes (A ++ packAll c (x :: xs) ++ B) A.length c.size = c.pack x := by
      unfold readBytes
      rw [List.append_assoc, List.drop_left' rfl]
      show ((c.pack x ++ packAll c xs) ++ B).take c.size = c.pack x
      rw [List.append_assoc]
      exact List.take_left' (c.pack_length x)
    have hbuf : A ++ packAll c (x :: xs) ++ B = (A ++ c.pack x) ++ packAll c xs ++ B := by
      simp [packAll]
    have hpos : A.length + c.size = (A ++ c.pack x).length := by
      simp [c.pack_length]
    show ((c.unpack (readBytes (A ++ packAll c (x :: xs) ++ B) A.length c.size))
          :: (unpack_items c (A ++ packAll c (x :: xs) ++ B) xs.length (A.length + c.size)).1,
        (unpack_items c (A ++ packAll c (x :: xs) ++ B) xs.length (A.length + c.size)).2)
        = (x :: xs, A.length + (x :: xs).length * c.size)
    rw [hread, c.unpack_pack, hpos, hbuf, ih (A ++ c.pack x) B]
    simp [c.pack_length, Nat.succ_mul]
    omega

theorem unpack_items_length (c : t8_single_data_handler T) (buffer : List Nat) :
    ∀ (n pos : Nat), (unpack_items c buffer n pos).1.length = n := by
  intro n
  induction n with
  | zero => intro pos; rfl
  | succ n ih =>
    intro pos
    show ((c.unpack (readBytes buffer pos c.size))
        :: (unpack_items c buffer n (pos + c.size)).1).length = n + 1
    simp [ih]

theorem buffer_size_some (c : t8_single_data_handler T) (data : List T) :
    buffer_size ⟨some data, c⟩ = count_prefix_size + data.length * c.size := by
  show data.foldl (fun total _item => total + c.size) count_prefix_size
      = count_prefix_size + data.length * c.size
  have key : ∀ (l : List T) (init : Nat),
      l.foldl (fun total _item => total + c.size) init = init + l.length * c.size := by
    intro l
    induction l with
    | nil => intro init; simp
    | cons x xs ih =>
      intro init
      simp [List.foldl_cons, ih, Nat.succ_mul]
      omega
  exact key data count_prefix_size

theorem pack_vector_prefix_spec (c : t8_single_data_handler T) (data : List T)
    (A mid B : List Nat) (nb : Nat)
    (hm : mid.length = count_prefix_size + data.length * c.size)
    (hnb : A.length + count_prefix_size ≤ nb) :
    pack_vector_prefix ⟨some data, c⟩ (A ++ mid ++ B) nb A.length
      = Except.ok (A ++ encodeAll c data ++ B,
          A.length + (count_prefix_size + data.length * c.size)) := by
  have hguard : ¬ nb < A.length + count_prefix_size := by omega
  obtain ⟨m1, m2, rfl, hm1, hm2⟩ :
      ∃ m1 m2, mid = m1 ++ m2 ∧ m1.length = count_prefix_size
        ∧ m2.length = data.length * c.size := by
    refine ⟨mid.take count_prefix_size, mid.drop count_prefix_size,
      (List.take_append_drop _ _).symm, ?_, ?_⟩
    · rw [List.length_take]; omega
    · rw [List.length_drop]; omega
  have hbuf : A ++ (m1 ++ m2) ++ B = A ++ m1 ++ (m2 ++ B) := by
    simp [List.append_assoc]
  have hw : writeBytes (A ++ (m1 ++ m2) ++ B) A.length (intToBytes (data.length : Int))
      = A ++ intToBytes (data.length : Int) ++ (m2 ++ B) := by
    rw [hbuf]
    exact writeBytes_exact A m1 (m2 ++ B) _ (by rw [hm1, intToBytes_length])
  have hpos : A.length + count_prefix_size = (A ++ intToBytes (data.length : Int)).length := by
    simp [intToBytes_length]
  have hbuf2 : A ++ intToBytes (data.length : Int) ++ (m2 ++ B)
      = (A ++ intToBytes (data.length : Int)) ++ m2 ++ B := by
    simp [List.append_assoc]
  show (if nb < A.length + count_prefix_size then Except.error t8_err.abort
      else Except.ok
        ( pack_items c data
          (writeBytes (A ++ (m1 ++ m2) ++ B) A.length (intToBytes (data.length : Int)))
          (A.length + count_prefix_size)))
      = Except.ok (A ++ encodeAll c data ++ B,
          A.length + (count_prefix_size + data.length * c.size))
  rw [if_neg hguard, hw, hpos, hbuf2]
  rw [pack_items_spec c data (A ++ intToBytes (data.length : Int)) m2 B hm2]
  simp only [Except.ok.injEq, Prod.mk.injEq]
  refine ⟨?_, ?_⟩
  · simp [encodeAll, List.append_assoc]
  · simp only [List.length_append, intToBytes_length]
    omega

theorem unpack_vector_prefix_enc (c : t8_single_data_handler T) (prior : Option (List T))
    (data : List T) (nb : Nat)
    (hlen : (data.length : Int) < 2147483648) (hnb : count_prefix_size ≤ nb) :
    unpack_vector_prefix ⟨prior, c⟩ (encodeAll c data) nb 0
      = Except.ok (⟨some data, c⟩, count_prefix_size + data.length * c.size,
          (data.length : Int)) := by
  have hread : readBytes (encodeAll c data) 0 count_prefix_size
      = intToBytes (data.length : Int) := by
    unfold readBytes encodeAll
    rw [List.drop_zero]
    exact List.take_left' (intToBytes_length _)
  have hcount : bytesToInt (readBytes (encodeAll c data) 0 count_prefix_size)
      = (data.length : Int) := by
    rw [hread]
    exact bytesToInt_intToBytes _ (Int.natCast_nonneg _) hlen
  have henc : encodeAll c data = intToBytes (data.length : Int) ++ packAll c data ++ [] := by
    simp [encodeAll]
  have hitems : unpack_items c (encodeAll c data) data.length (0 + count_prefix_size)
      = (data, count_prefix_size + data.length * c.size) := by
    rw [henc]
    have hpos : 0 + count_prefix_size = (intToBytes (data.length : Int)).length := by
      simp [intToBytes_length]
    rw [hpos, unpack_items_spec c data (intToBytes (data.length : Int)) []]
    simp [intToBytes_length]
  have htn : ((data.length : Int)).toNat = data.length := by omega
  unfold unpack_vector_prefix
  rw [if_neg (show ¬ nb < 0 + count_prefix_size by omega), hcount,
    if_neg (show ¬ (data.length : Int) < 0 by omega), htn, hitems]

theorem encodeAll_length (c : t8_single_data_handler T) (data : List T) :
    (encodeAll c data).length = count_prefix_size + data.length * c.size := by
  simp [encodeAll, intToBytes_length, packAll_length]

theorem pack_items_zero (c : t8_single_data_handler T) (data : List T) :
    ( pack_items c data
      (writeBytes (List.replicate (count_prefix_size + data.length * c.size) 0) 0
        (intToBytes (data.length : Int)))
      count_prefix_size).1 = encodeAll c data := by
  have hw : writeBytes (List.replicate (count_prefix_size + data.length * c.size) 0) 0
      (intToBytes (data.length : Int))
      = intToBytes (data.length : Int) ++ List.replicate (data.length * c.size) 0 ++ [] := by
    unfold writeBytes
    simp [intToBytes_length, List.drop_replicate]
  have hp : count_prefix_size = (intToBytes (data.length : Int)).length :=
    (intToBytes_length _).symm
  rw [hw, hp, pack_items_spec c data (intToBytes (data.length : Int))
    (List.replicate (data.length * c.size) 0) [] (by simp)]
  simp [encodeAll]

theorem pack_vector_prefix_replicate (c : t8_single_data_handler T) (data : List T) :
    pack_vector_prefix ⟨some data, c⟩ (List.replicate (buffer_size ⟨some data, c⟩) 0)
        (buffer_size ⟨some data, c⟩) 0
      = Except.ok (encodeAll c data, buffer_size ⟨some data, c⟩) := by
  have hbs := buffer_size_some c data
  have h := pack_vector_prefix_spec c data []
    (List.replicate (buffer_size ⟨some data, c⟩) 0) [] (buffer_size ⟨some data, c⟩)
    (by simp [hbs]) (by simp [hbs])
  simpa [hbs] using h

/-- Claim C1: for every codec (any supported type `T` under any
context), every collection of `N < 100` values and any prior decoder
state, packing with `pack_vector_prefix` into a buffer of exactly
`buffer_size` bytes and then decoding that buffer with
`unpack_vector_prefix` at cursor 0 succeeds and yields the original
collection element-wise, with `outcount = N` and exactly
`buffer_size` bytes consumed. -/
theorem claim_C1 (c : t8_single_data_handler T) (data : List T)
    (prior : Option (List T)) (hN : data.length < 100) :
    pack_vector_prefix ⟨some data, c⟩
        (List.replicate (buffer_size ⟨some data, c⟩) 0) (buffer_size ⟨some data, c⟩) 0
      = Except.ok (encodeAll c data, buffer_size ⟨some data, c⟩)
    ∧ unpack_vector_prefix ⟨prior, c⟩ (encodeAll c data) (buffer_size ⟨some data, c⟩) 0
      = Except.ok (⟨some data, c⟩, buffer_size ⟨some data, c⟩, (data.length : Int)) := by
  have hbs := buffer_size_some c data
  constructor
  · exact pack_vector_prefix_replicate c data
  · rw [hbs]
    exact unpack_vector_prefix_enc c prior data _ (by omega) (by omega)

/-- Claim C1 witness: the round trip at the concrete collection
`[true, false, true]` of the byte codec for `Bool`. -/
theorem claim_C1_witness :
    ([true, false, true].length < 100)
    ∧ ( pack_vector_prefix (⟨some [true, false, true], boolCodec⟩ : t8_data_handler Bool)
        (List.replicate (buffer_size ⟨some [true, false, true], boolCodec⟩) 0)
        (buffer_size ⟨some [true, false, true], boolCodec⟩) 0
      = Except.ok (encodeAll boolCodec [true, false, true],
          buffer_size ⟨some [true, false, true], boolCodec⟩)
    ∧ unpack_vector_prefix (⟨none, boolCodec⟩ : t8_data_handler Bool)
        (encodeAll boolCodec [true, false, true])
        (buffer_size ⟨some [true, false, true], boolCodec⟩) 0
      = Except.ok (⟨some [true, false, true], boolCodec⟩,
          buffer_size ⟨some [true, false, true], boolCodec⟩, (3 : Int))) :=
  ⟨by decide, claim_C1 boolCodec [true, false, true] none (by decide)⟩

/-- Claim C2: decoding any buffer whose first four bytes decode as a
negative count is rejected with a fatal error (`T8_ASSERT
(outcount >= 0)`, resp. the truncation abort of `SC_CHECK_MPI` when
even the prefix cannot be read); neither decode path ever returns a
populated collection for such a buffer.  Both handler variants are
covered. -/
theorem claim_C2 (c : t8_single_data_handler T) (prior : Option (List T))
    (buffer : List Nat) (num_bytes : Nat)
    (hneg : bytesToInt (readBytes buffer 0 count_prefix_size) < 0) :
    unpack_vector_prefix ⟨prior, c⟩ buffer num_bytes 0 = Except.error t8_err.abort
    ∧ t8_data_unpack_vector c buffer = Except.error t8_err.abort := by
  constructor
  · unfold unpack_vector_prefix
    by_cases h : num_bytes < 0 + count_prefix_size
    · rw [if_pos h]
    · rw [if_neg h, if_pos hneg]
  · unfold t8_data_unpack_vector
    by_cases h : buffer.length < count_prefix_size
    · rw [if_pos h]
    · rw [if_neg h, if_pos hneg]

/-- Claim C2 witness: the buffer `[255, 255, 255, 255]`, whose prefix
decodes as the negative 32-bit count `-1`, is rejected by both decode
paths. -/
theorem claim_C2_witness :
    (bytesToInt (readBytes [255, 255, 255, 255] 0 count_prefix_size) < 0)
    ∧ ( unpack_vector_prefix (⟨none, boolCodec⟩ : t8_data_handler Bool)
        [255, 255, 255, 255] 4 0 = Except.error t8_err.abort
    ∧ t8_data_unpack_vector boolCodec [255, 255, 255, 255] = Except.error t8_err.abort) :=
  ⟨by decide, claim_C2 boolCodec none [255, 255, 255, 255] 4 (by decide)⟩

/-- Claim C3: `buffer_size` is the count-prefix size plus the number of
owned elements times the codec's per-element encoded size; a handler
owning zero elements, or no collection at all, reports the prefix size
alone.  The second variant's `t8_buffer_size` obeys the same formula
for a hypothetical count `n`. -/
theorem claim_C3 (c : t8_single_data_handler T) (data : List T) (n : Nat) :
    buffer_size ⟨some data, c⟩ = count_prefix_size + data.length * c.size
    ∧ buffer_size (⟨none, c⟩ : t8_data_handler T) = count_prefix_size
    ∧ buffer_size ⟨some ([] : List T), c⟩ = count_prefix_size
    ∧ t8_buffer_size c n = count_prefix_size + n * c.size :=
  ⟨buffer_size_some c data, rfl, rfl, rfl⟩

/-- Claim C4: whenever `unpack_vector_prefix` succeeds, the handler's
owned collection has length exactly the count read from the wire
prefix (which is nonnegative), and the outcome — owned collection,
final cursor and outcount — is identical for every prior handler
state, i.e. any prior contents are fully discarded and the collection
is never left partially populated or at its old length. -/
theorem claim_C4 (c : t8_single_data_handler T) (prior prior2 : Option (List T))
    (buffer : List Nat) (num_bytes pos : Nat) (h' : t8_data_handler T) (pos' : Nat) (oc : Int)
    (hok : unpack_vector_prefix ⟨prior, c⟩ buffer num_bytes pos = Except.ok (h', pos', oc)) :
    h'.m_data.map List.length = some oc.toNat
    ∧ 0 ≤ oc
    ∧ unpack_vector_prefix ⟨prior2, c⟩ buffer num_bytes pos = Except.ok (h', pos', oc) := by
  unfold unpack_vector_prefix at hok ⊢
  by_cases h1 : num_bytes < pos + count_prefix_size
  · rw [if_pos h1] at hok
    exact absurd hok (by simp)
  · rw [if_neg h1] at hok
    by_cases h2 : bytesToInt (readBytes buffer pos count_prefix_size) < 0
    · rw [if_pos h2] at hok
      exact absurd hok (by simp)
    · rw [if_neg h2] at hok
      simp only [Except.ok.injEq, Prod.mk.injEq] at hok
      obtain ⟨rfl, rfl, rfl⟩ := hok
      refine ⟨by simp [unpack_items_length], by omega, ?_⟩
      rw [if_neg h1, if_neg h2]

/-- Claim C4 witness: decoding the wire image of `[true, false]` from
two different prior states (`none` and `some [false]`) yields the same
owned collection of length 2 (= the decoded count), final cursor 6 and
outcount 2. -/
theorem claim_C4_witness :
    (⟨some [true, false], boolCodec⟩ : t8_data_handler Bool).m_data.map List.length
        = some ((2 : Int)).toNat
    ∧ (0 : Int) ≤ 2
    ∧ unpack_vector_prefix (⟨some [false], boolCodec⟩ : t8_data_handler Bool)
        [2, 0, 0, 0, 1, 0] 6 0
      = Except.ok (⟨some [true, false], boolCodec⟩, 6, 2) :=
  claim_C4 boolCodec none (some [false]) [2, 0, 0, 0, 1, 0] 6 0
    ⟨some [true, false], boolCodec⟩ 6 2 rfl

/-- Claim C5: with MPI compiled out, `send` and `recv` make no
transport call at all (empty transport trace), emit exactly one
informational diagnostic, and immediately return the distinguished
nonzero status `sc_MPI_ERR_OTHER`; being pure functions of the handler
that return no new handler state, they leave the owned collection
unchanged. -/
theorem claim_C5 (h : t8_data_handler T) :
    send_noMPI h
      = ([], ["send only available when configured with --enable-mpi\n"], sc_MPI_ERR_OTHER)
    ∧ recv_noMPI h
      = ([], ["recv only available when configured with --enable-mpi\n"], sc_MPI_ERR_OTHER)
    ∧ sc_MPI_ERR_OTHER ≠ sc_MPI_SUCCESS :=
  ⟨rfl, rfl, by decide⟩

/-- Claim C9: on a default-constructed handler (`m_data = nullptr`),
`pack_vector_prefix` hits the null dereference (`m_data->size ()`)
before any bounds or state check — for every buffer, byte bound and
cursor — and `send` therefore dies the same way before issuing any
transport call (empty trace); `buffer_size` and `type` on the very
same handler are safe, returning the prefix size alone and the codec's
tag. -/
theorem claim_C9 (c : t8_single_data_handler T) (buffer : List Nat)
    (num_bytes pos : Nat) (tr : t8_transport) :
    pack_vector_prefix (⟨none, c⟩ : t8_data_handler T) buffer num_bytes pos
      = Except.error t8_err.undef
    ∧ send_mpi tr (⟨none, c⟩ : t8_data_handler T) = ([], Except.error t8_err.undef)
    ∧ buffer_size (⟨none, c⟩ : t8_data_handler T) = count_prefix_size
    ∧ type (⟨none, c⟩ : t8_data_handler T) = c.type :=
  ⟨rfl, rfl, rfl, rfl⟩

/-- Claim C6 counterexample: the claim that a non-success transport
status is propagated verbatim as the operation's return value is
false: with a transport whose blocking send returns status 15, `send`
on a handler owning an (empty) collection aborts fatally
(`SC_CHECK_MPI`) instead of returning 15. -/
theorem claim_C6_cex :
    (send_mpi ⟨15, 0, 0, 0, []⟩ (⟨some [], boolCodec⟩ : t8_data_handler Bool)).2
      = Except.error t8_err.abort
    ∧ (Except.error t8_err.abort : Except t8_err Int) ≠ Except.ok 15 :=
  ⟨rfl, fun h => Except.noConfusion h⟩

/-- Claim C6 (amended): in an MPI build a non-success status from any
underlying transport operation causes a fatal abort (`SC_CHECK_MPI`)
before any further transport call, so each operation is attempted at
most once, no status is remapped, and a non-success status is never
returned; only on the all-success path does the operation return, and
it then returns the transport's (success) status verbatim. -/
theorem claim_C6 (c : t8_single_data_handler T) (d : List T) (prior : Option (List T))
    (tr tr2 tr3 tr4 : t8_transport) (s : Int) (h' : t8_data_handler T) (oc : Int)
    (hfs : tr.send_status ≠ sc_MPI_SUCCESS)
    (hfp : tr.probe_status ≠ sc_MPI_SUCCESS)
    (h2s : tr2.send_status = sc_MPI_SUCCESS)
    (h2p : tr2.probe_status = sc_MPI_SUCCESS)
    (h2g : tr2.get_count_status = sc_MPI_SUCCESS)
    (h2r : tr2.recv_status = sc_MPI_SUCCESS)
    (h3p : tr3.probe_status = sc_MPI_SUCCESS)
    (h3g : tr3.get_count_status ≠ sc_MPI_SUCCESS)
    (h4p : tr4.probe_status = sc_MPI_SUCCESS)
    (h4g : tr4.get_count_status = sc_MPI_SUCCESS)
    (h4r : tr4.recv_status ≠ sc_MPI_SUCCESS)
    (hok : (recv_mpi tr2 ⟨prior, c⟩).2 = Except.ok (s, h', oc)) :
    send_mpi tr ⟨some d, c⟩ = ([t8_op.opSend], Except.error t8_err.abort)
    ∧ recv_mpi tr ⟨prior, c⟩ = ([t8_op.opProbe], Except.error t8_err.abort)
    ∧ recv_mpi tr3 ⟨prior, c⟩
      = ([t8_op.opProbe, t8_op.opGetCount], Except.error t8_err.abort)
    ∧ recv_mpi tr4 ⟨prior, c⟩
      = ([t8_op.opProbe, t8_op.opGetCount, t8_op.opRecv], Except.error t8_err.abort)
    ∧ send_mpi tr2 ⟨some d, c⟩ = ([t8_op.opSend], Except.ok tr2.send_status)
    ∧ (recv_mpi tr2 ⟨prior, c⟩).1 = [t8_op.opProbe, t8_op.opGetCount, t8_op.opRecv]
    ∧ s = tr2.recv_status := by
  have hpack := pack_vector_prefix_replicate c d
  refine ⟨?_, ?_, ?_, ?_, ?_, ?_, ?_⟩
  · unfold send_mpi
    rw [hpack]
    simp [hfs]
  · unfold recv_mpi
    rw [if_pos hfp]
  · unfold recv_mpi
    rw [if_neg (not_not_intro h3p), if_pos h3g]
  · unfold recv_mpi
    rw [if_neg (not_not_intro h4p), if_neg (not_not_intro h4g), if_pos h4r]
  · unfold send_mpi
    rw [hpack]
    simp [h2s]
  · unfold recv_mpi
    rw [if_neg (not_not_intro h2p), if_neg (not_not_intro h2g), if_neg (not_not_intro h2r)]
    cases hu : unpack_vector_prefix (⟨prior, c⟩ : t8_data_handler T) tr2.msg tr2.msg.length 0 with
    | error e => rfl
    | ok v =>
      obtain ⟨h'', p'', oc''⟩ := v
      rfl
  · unfold recv_mpi at hok
    rw [if_neg (not_not_intro h2p), if_neg (not_not_intro h2g),
      if_neg (not_not_intro h2r)] at hok
    cases hu : unpack_vector_prefix (⟨prior, c⟩ : t8_data_handler T) tr2.msg tr2.msg.length 0 with
    | error e =>
      rw [hu] at hok
      simp at hok
    | ok v =>
      obtain ⟨h'', p'', oc''⟩ := v
      rw [hu] at hok
      simp only [Except.ok.injEq, Prod.mk.injEq] at hok
      exact hok.1.symm

/-- Claim C6 witness: a failing transport (all statuses 15) aborts both
`send` and `recv` after a single transport call, a transport failing
only at get-count aborts after probe and get-count, one failing only
at the blocking receive aborts after all three calls, and an
all-success transport carrying the wire image of the empty collection
returns its success statuses verbatim. -/
theorem claim_C6_witness :
    send_mpi ⟨15, 15, 15, 15, []⟩ (⟨some [], boolCodec⟩ : t8_data_handler Bool)
      = ([t8_op.opSend], Except.error t8_err.abort)
    ∧ recv_mpi ⟨15, 15, 15, 15, []⟩ (⟨none, boolCodec⟩ : t8_data_handler Bool)
      = ([t8_op.opProbe], Except.error t8_err.abort)
    ∧ recv_mpi ⟨0, 0, 15, 0, []⟩ (⟨none, boolCodec⟩ : t8_data_handler Bool)
      = ([t8_op.opProbe, t8_op.opGetCount], Except.error t8_err.abort)
    ∧ recv_mpi ⟨0, 0, 0, 15, []⟩ (⟨none, boolCodec⟩ : t8_data_handler Bool)
      = ([t8_op.opProbe, t8_op.opGetCount, t8_op.opRecv], Except.error t8_err.abort)
    ∧ send_mpi ⟨0, 0, 0, 0, [0, 0, 0, 0]⟩ (⟨some [], boolCodec⟩ : t8_data_handler Bool)
      = ([t8_op.opSend], Except.ok (0 : Int))
    ∧ (recv_mpi ⟨0, 0, 0, 0, [0, 0, 0, 0]⟩ (⟨none, boolCodec⟩ : t8_data_handler Bool)).1
      = [t8_op.opProbe, t8_op.opGetCount, t8_op.opRecv]
    ∧ (0 : Int) = 0 :=
  claim_C6 boolCodec [] none ⟨15, 15, 15, 15, []⟩ ⟨0, 0, 0, 0, [0, 0, 0, 0]⟩
    ⟨0, 0, 15, 0, []⟩ ⟨0, 0, 0, 15, []⟩ 0 ⟨some [], boolCodec⟩ 0
    (by decide) (by decide) rfl rfl rfl rfl rfl (by decide) rfl rfl (by decide) rfl

/-- Claim C7: with transport enabled and all transport statuses
successful, `recv` performs, in order, exactly one probe, one
get-count and one blocking receive; it sizes the receive buffer as the
probed message's exact byte length (never from this layer's count
prefix — the theorem holds for every message payload, here one that is
the wire image of an arbitrary collection), decodes the received
bytes, returns the transport status and sets outcount to the decoded
element count. -/
theorem claim_C7 (c : t8_single_data_handler T) (prior : Option (List T))
    (data : List T) (tr : t8_transport)
    (hp : tr.probe_status = sc_MPI_SUCCESS) (hg : tr.get_count_status = sc_MPI_SUCCESS)
    (hr : tr.recv_status = sc_MPI_SUCCESS)
    (hmsg : tr.msg = encodeAll c data)
    (hlen : (data.length : Int) < 2147483648) :
    recv_mpi tr ⟨prior, c⟩
      = ([t8_op.opProbe, t8_op.opGetCount, t8_op.opRecv],
        Except.ok (tr.recv_status, ⟨some data, c⟩, (data.length : Int))) := by
  unfold recv_mpi
  rw [if_neg (not_not_intro hp), if_neg (not_not_intro hg), if_neg (not_not_intro hr), hmsg]
  rw [unpack_vector_prefix_enc c prior data (encodeAll c data).length hlen
    (by rw [encodeAll_length]; omega)]

/-- Claim C7 witness: receiving the 5-byte wire image of `[true]` with
an all-success transport yields the full probe/get-count/receive trace
and `outcount = 1`. -/
theorem claim_C7_witness :
    recv_mpi ⟨0, 0, 0, 0, [1, 0, 0, 0, 1]⟩ (⟨none, boolCodec⟩ : t8_data_handler Bool)
      = ([t8_op.opProbe, t8_op.opGetCount, t8_op.opRecv],
        Except.ok ((0 : Int), ⟨some [true], boolCodec⟩, (1 : Int))) :=
  claim_C7 boolCodec none [true] ⟨0, 0, 0, 0, [1, 0, 0, 0, 1]⟩ rfl rfl rfl (by decide) (by decide)

/-- Claim C8: when at least `buffer_size` bytes remain from cursor `p`
to the end of the buffer, `pack_vector_prefix` writes the count prefix
at `p` followed by every owned element in original order, leaves the
bytes before `p` and after `p + buffer_size` untouched, and returns
the cursor advanced by exactly `buffer_size` — which is what lets
several handlers pack back-to-back through one threaded cursor.  The
second variant's `t8_data_pack_vector` produces the same wire image
into its exactly-sized buffer. -/
theorem claim_C8 (c : t8_single_data_handler T) (data : List T)
    (buffer : List Nat) (p : Nat)
    (hroom : p + buffer_size ⟨some data, c⟩ ≤ buffer.length) :
    pack_vector_prefix ⟨some data, c⟩ buffer buffer.length p
      = Except.ok (buffer.take p ++ encodeAll c data
            ++ buffer.drop (p + buffer_size ⟨some data, c⟩),
          p + buffer_size ⟨some data, c⟩)
    ∧ t8_data_pack_vector c data data.length
        (List.replicate (t8_buffer_size c data.length) 0)
      = Except.ok (encodeAll c data) := by
  have hbs := buffer_size_some c data
  constructor
  · have hA : (buffer.take p).length = p := by
      rw [List.length_take]; omega
    have hmid : ((buffer.drop p).take (buffer_size ⟨some data, c⟩)).length
        = count_prefix_size + data.length * c.size := by
      rw [List.length_take, List.length_drop, ← hbs]; omega
    have hsplit : buffer = buffer.take p ++ (buffer.drop p).take (buffer_size ⟨some data, c⟩)
        ++ buffer.drop (p + buffer_size ⟨some data, c⟩) := by
      conv_lhs => rw [← List.take_append_drop p buffer]
      rw [List.append_assoc]
      congr 1
      conv_lhs => rw [← List.take_append_drop (buffer_size ⟨some data, c⟩) (buffer.drop p)]
      congr 1
      rw [List.drop_drop]
    have h := pack_vector_prefix_spec c data (buffer.take p)
      ((buffer.drop p).take (buffer_size ⟨some data, c⟩))
      (buffer.drop (p + buffer_size ⟨some data, c⟩)) buffer.length
      hmid (by rw [hA]; rw [hbs] at hroom; omega)
    rw [hA, ← hsplit] at h
    rw [hbs]
    rw [hbs] at h
    exact h
  · unfold t8_data_pack_vector
    rw [if_neg (by simp), if_neg (by omega), List.take_length]
    show Except.ok ( pack_items c data
        (writeBytes (List.replicate (count_prefix_size + data.length * c.size) 0) 0
          (intToBytes (data.length : Int)))
        count_prefix_size).1 = Except.ok (encodeAll c data)
    rw [pack_items_zero]

/-- Claim C8 witness: packing `[true]` at cursor 2 of a 10-byte buffer
of 7s advances the cursor to 7 and rewrites only bytes 2-6; the second
variant packs the identical wire image. -/
theorem claim_C8_witness :
    (2 + buffer_size (⟨some [true], boolCodec⟩ : t8_data_handler Bool)
        ≤ (List.replicate 10 7).length)
    ∧ ( pack_vector_prefix (⟨some [true], boolCodec⟩ : t8_data_handler Bool)
        (List.replicate 10 7) (List.replicate 10 7).length 2
      = Except.ok ((List.replicate 10 7).take 2 ++ encodeAll boolCodec [true]
            ++ (List.replicate 10 7).drop (2 + buffer_size ⟨some [true], boolCodec⟩),
          2 + buffer_size ⟨some [true], boolCodec⟩)
    ∧ t8_data_pack_vector boolCodec [true] [true].length
        (List.replicate (t8_buffer_size boolCodec [true].length) 0)
      = Except.ok (encodeAll boolCodec [true])) :=
  ⟨by decide, claim_C8 boolCodec [true] (List.replicate 10 7) 2 (by decide)⟩

/-- Claim C10: `get_data` hands the owned collection to the caller when
one is owned and leaves the caller's vector exactly as it was when the
handler owns none; the handler itself (a `const` method, modelled as a
pure function returning no handler) is unmodified in both cases. -/
theorem claim_C10 (c : t8_single_data_handler T) (d caller : List T) :
    get_data ⟨some d, c⟩ caller = d
    ∧ get_data (⟨none, c⟩ : t8_data_handler T) caller = caller :=
  ⟨rfl, rfl⟩

end T8
